import Mathlib

/-!
A shallow embedding of the core of the `ripunzip` parallel zip extractor:
the cloneable seekable reader (`src/unzip/cloneable_seekable_reader.rs`)
and the extraction orchestrator (`src/unzip/mod.rs`), together with
theorems settling the specification's claims about them.
-/

namespace Ripunzip

/-- The underlying byte source (`R: Read + Seek + HasLength`), e.g. a
`File` or a `Cursor`: a byte sequence together with the reader's true
position.  Reading returns up to `n` bytes from the current position and
advances it; seeking moves the position (possibly past the end); the
length is the total data length, independent of the position. -/
structure Source where
  data : List Nat
  pos : Nat
  deriving Repr, DecidableEq

/-- `r.read(buf)` for a file/cursor source: yields
`min(n, len - pos)` bytes starting at the current position and advances
the position by the number of bytes read.  Reading at or past the end
yields zero bytes without error. -/
def Source.read (s : Source) (n : Nat) : Source × List Nat :=
  let bytes := (s.data.drop s.pos).take n
  ({ s with pos := s.pos + bytes.length }, bytes)

/-- `r.seek(SeekFrom::Start(o))` on the source: sets the position
(seeking past the end is permitted). -/
def Source.seekStart (s : Source) (o : Nat) : Source :=
  { s with pos := o }

/-- `HasLength::len` for files and cursors: the total data length,
independent of the current position. -/
def Source.len (s : Source) : Nat := s.data.length

/-- `Inner<R>`: the record shared behind `Arc<Mutex<...>>`, holding the
source `r`, the recorded position `pos` of `r`, and the lazily loaded
length `len`. -/
structure Inner where
  r : Source
  pos : Nat
  len : Option Nat
  deriving Repr, DecidableEq

/-- `Inner::new(r)`: position 0 recorded, length not yet loaded. -/
def Inner.new (r : Source) : Inner :=
  { r := r, pos := 0, len := none }

/-- `Inner::len()` (named `getLen` here because `len` is the field): the
length of the data stream, loaded from the source on first use and cached
thereafter. -/
def Inner.getLen (s : Inner) : Inner × Nat :=
  match s.len with
  | some l => (s, l)
  | none =>
    let l := s.r.len
    ({ s with len := some l }, l)

/-- `Inner::read_at(offset, buf)`: if `offset != self.pos`, seek the
source to `offset` (the code does not update `self.pos` on this seek);
then read from the source, and on success add the number of bytes read to
`self.pos`.  The source read itself is infallible for the file/cursor
sources modelled here, so the `Ok` branch is always taken. -/
def Inner.read_at (s : Inner) (offset : Nat) (n : Nat) : Inner × List Nat :=
  let s := if offset ≠ s.pos then { s with r := s.r.seekStart offset } else s
  let res := s.r.read n
  ({ s with r := res.1, pos := s.pos + res.2.length }, res.2)

/-- `std::io::SeekFrom` (`End` is spelled `fromEnd` because `end` is a
reserved word). -/
inductive SeekFrom where
  | start (n : Nat)
  | fromEnd (k : Int)
  | current (k : Int)
  deriving Repr, DecidableEq

/-- A `std::io::Error` as far as this model needs it: kind and message. -/
structure IoErr where
  kind : String
  msg : String
  deriving Repr, DecidableEq

/-- The Rust expression `(-k) as u64` for `k : i64`, with wrapping
(release) semantics: the two's-complement bits of `-k` read as an
unsigned 64-bit value. -/
def i64NegAsU64 (k : Int) : Nat :=
  ((-k) % (2 ^ 64 : Int)).toNat

/-- `a + b` on `u64` with wrapping (release) semantics. -/
def u64Add (a b : Nat) : Nat := (a + b) % 2 ^ 64

/-- `a - b` on `u64` with wrapping (release) semantics, for `a < 2^64`. -/
def u64Sub (a b : Nat) : Nat := (2 ^ 64 + a - b % 2 ^ 64) % 2 ^ 64

/-- `CloneableSeekableReader::read(buf)`: lock the shared `Inner`, call
`read_at(self.pos, buf)`, and on success advance the holder's logical
position by the number of bytes read.  Returns the updated shared state,
the holder's updated position, and the bytes read. -/
def CloneableSeekableReader.read (inner : Inner) (pos : Nat) (n : Nat) :
    Inner × Nat × List Nat :=
  let res := inner.read_at pos n
  (res.1, pos + res.2.length, res.2)

/-- `CloneableSeekableReader::seek(pos)`: arithmetic on the holder's
position; only `SeekFrom::End` consults (and caches) the shared length.
Mirrors the source's `u64` casts: `End(k)` compares `(-k) as u64` against
the file length and fails with *invalid input* when larger, otherwise the
new position is `file_len - ((-k) as u64)`; `Current(k)` adds for
positive `k` and subtracts `(-k) as u64` otherwise.  On success the
holder's `pos` becomes the returned position; on error it is unchanged. -/
def CloneableSeekableReader.seek (inner : Inner) (pos : Nat) (f : SeekFrom) :
    Inner × Except IoErr Nat :=
  match f with
  | .start n => (inner, .ok n)
  | .fromEnd k =>
    let res := inner.getLen
    if i64NegAsU64 k > res.2 then
      (res.1, .error { kind := "InvalidInput", msg := "Seek too far backwards" })
    else
      (res.1, .ok (res.2 - i64NegAsU64 k))
  | .current k =>
    if 0 < k then (inner, .ok (u64Add pos k.toNat))
    else (inner, .ok (u64Sub pos (i64NegAsU64 k)))

/-- The state of one shared reader and all live handles onto it: the
contents of the `Arc<Mutex<Inner>>` plus each `CloneableSeekableReader`
handle's own logical `pos`.  Every handle in `cursors` refers to the
single `inner`, mirroring the shared `Arc`. -/
structure CSRSystem where
  inner : Inner
  cursors : List Nat
  deriving Repr, DecidableEq

/-- `CloneableSeekableReader::new(r)`: fresh shared state, one handle at
position 0. -/
def CSRSystem.new (data : List Nat) : CSRSystem :=
  { inner := Inner.new { data := data, pos := 0 }, cursors := [0] }

/-- `Clone for CloneableSeekableReader`, applied to handle `i`: the new
handle shares `inner` (the `Arc` is reference-counted) and copies the
original handle's `pos` field. -/
def CSRSystem.cloneAt (s : CSRSystem) (i : Nat) : CSRSystem :=
  { s with cursors := s.cursors ++ [s.cursors.getD i 0] }

/-- Perform `read` on handle `i`, threading the shared `Inner`. -/
def CSRSystem.readAt (s : CSRSystem) (i : Nat) (n : Nat) :
    CSRSystem × List Nat :=
  let res := CloneableSeekableReader.read s.inner (s.cursors.getD i 0) n
  ({ inner := res.1, cursors := s.cursors.set i res.2.1 }, res.2.2)

/-- Perform `seek` on handle `i`, threading the shared `Inner`. -/
def CSRSystem.seekAt (s : CSRSystem) (i : Nat) (f : SeekFrom) :
    CSRSystem × Except IoErr Nat :=
  match CloneableSeekableReader.seek s.inner (s.cursors.getD i 0) f with
  | (inner, .ok p) => ({ inner := inner, cursors := s.cursors.set i p }, .ok p)
  | (inner, .error e) => ({ inner := inner, cursors := s.cursors }, .error e)

/-! ## The extraction orchestrator (`src/unzip/mod.rs`)

Per-entry extraction is modelled as a pure function from an archive entry
to a trace of externally observable effects (progress callbacks, filter
queries, skip hints, filesystem operations) together with a result.
Filesystem operations (directory creation, file creation, writes, chmod)
are modelled as succeeding; the `ProgressUpdater`'s byte ticks are
orthogonal to every claim and are not traced. -/

/-- One archive entry as the external zip library presents it:
`file.name()` (raw), `file.enclosed_name()` (`none` when the raw path is
unsafe to extract), sizes, the optional `unix_mode`, and the decompressed
contents. -/
structure ZipEntry where
  rawName : String
  enclosedName : Option String
  compressedSize : Nat
  uncompressedSize : Nat
  unixMode : Option Nat
  data : List Nat
  deriving Repr, DecidableEq

/-- An externally observable effect of the extraction code. -/
inductive Event where
  | totalBytesExpected (n : Nat)
  | filterQuery (name : String)
  | skipCallback (n : Nat)
  | extractionStarting (name : String)
  | extractionFinished (name : String)
  | createDirAll (path : String)
  | ensureParentDir (path : String)
  | createFile (path : String)
  | writeBytes (path : String) (data : List Nat)
  | setPermissions (path : String) (mode : Nat)
  deriving Repr, DecidableEq

/-- An `anyhow::Error` as far as this model needs it: an underlying
`std::io::Error` possibly wrapped in `with_context` annotations. -/
inductive UErr where
  | ioErr (kind : String) (msg : String)
  | context (msg : String) (inner : UErr)
  deriving Repr, DecidableEq

/-- The error `extract_file_inner` raises for an entry whose
`enclosed_name` is absent:
`std::io::Error::new(ErrorKind::Unsupported, "path not safe to extract")`. -/
def pathNotSafeErr : UErr := .ioErr "Unsupported" "path not safe to extract"

/-- The name `extract_file_if_on_list` computes for an entry:
`enclosed_name` rendered as a string, or the literal `"<unprintable>"`
when `enclosed_name` is absent. -/
def lossyName (e : ZipEntry) : String :=
  match e.enclosedName with
  | some n => n
  | none => "<unprintable>"

/-- Rust's `name.ends_with('/')`: whether the last character of the
string is `/` (stated over the character list so that it evaluates by
`decide`). -/
def endsWithSlash (s : String) : Bool :=
  s.data.getLast? == some '/'

/-- `output_directory.join(name)` when an output directory is set,
`PathBuf::from(name)` otherwise. -/
def entryOutPath (outdir : Option String) (name : String) : String :=
  match outdir with
  | some d => d ++ "/" ++ name
  | none => name

/-- `extract_file_inner(file, output_directory, ...)`: recompute
`enclosed_name` and fail with the unsafe-path error if absent; emit
`extraction_starting`; for a directory entry (raw name ending in `/`)
create the directory, otherwise ensure the parent directory, create the
output file and stream the decompressed bytes into it; then (on unix) set
the file's permissions from `unix_mode` when present; finally emit
`extraction_finished`. -/
def extract_file_inner (e : ZipEntry) (outdir : Option String) :
    List Event × Except UErr Unit :=
  match e.enclosedName with
  | none => ([], .error pathNotSafeErr)
  | some name =>
    let outPath := entryOutPath outdir name
    let body :=
      if endsWithSlash e.rawName then
        [Event.createDirAll outPath]
      else
        [Event.ensureParentDir outPath, Event.createFile outPath,
         Event.writeBytes outPath e.data]
    let perms :=
      match e.unixMode with
      | some mode => [Event.setPermissions outPath mode]
      | none => []
    (Event.extractionStarting name :: body ++ perms
       ++ [Event.extractionFinished name],
     .ok ())

/-- `extract_file_if_on_list`: compute the (lossy) name, consult the
filename filter with it; if accepted, run `extract_file_inner` and
annotate any error with `"Failed to extract {name}"`; if rejected, invoke
the skip callback with the entry's compressed size and return success. -/
def extract_file_if_on_list (e : ZipEntry) (fil : String → Bool)
    (outdir : Option String) : List Event × Except UErr Unit :=
  let name := lossyName e
  if fil name then
    let res := extract_file_inner e outdir
    (Event.filterQuery name :: res.1,
     res.2.mapError (UErr.context ("Failed to extract " ++ name)))
  else
    ([Event.filterQuery name, Event.skipCallback e.compressedSize], .ok ())

/-- The payload of an `Err` result, as `Result::err` yields it. -/
def errOf : Except UErr Unit → Option UErr
  | .ok _ => none
  | .error e => some e

/-- `unzip_serial_or_parallel`: both the single-threaded branch and the
rayon `par_bridge` branch apply `extract_file_if_on_list` to every index
in `0..len` and collect exactly the `Err` results
(`.filter_map(Result::err).collect()`); they differ only in scheduling,
which this pure model does not represent, so both are the same traversal
here.  The entry list stands in for the index range: entry `i` is what
`by_index(i)` yields. -/
def unzip_serial_or_parallel (entries : List ZipEntry) (fil : String → Bool)
    (outdir : Option String) : List Event × List UErr :=
  let results := entries.map fun e => extract_file_if_on_list e fil outdir
  ((results.map Prod.fst).flatten, results.filterMap fun r => errOf r.2)

/-- `UnzipEngine`: the entry list (what the opened `ZipArchive` yields by
index), the compressed length, and the relevant options. -/
structure UnzipEngine where
  entries : List ZipEntry
  compressedLength : Nat
  outputDirectory : Option String
  singleThreaded : Bool
  deriving Repr, DecidableEq

/-- `UnzipEngine::unzip_selective(filter)`: report
`total_bytes_expected`, run `unzip_serial_or_parallel`, and return the
first collected error if any, success otherwise
(`errors.into_iter().next().map(Result::Err).unwrap_or(Ok(()))`). -/
def UnzipEngine.unzip_selective (eng : UnzipEngine) (fil : String → Bool) :
    List Event × Except UErr Unit :=
  let res := unzip_serial_or_parallel eng.entries fil eng.outputDirectory
  (Event.totalBytesExpected eng.compressedLength :: res.1,
   match res.2 with
   | [] => .ok ()
   | e :: _ => .error e)

/-- `UnzipAllFilter::should_unzip`: admits every filename. -/
def UnzipAllFilter.should_unzip (_filename : String) : Bool := true

/-- `UnzipEngine::unzip()`: delegates to `unzip_selective` with
`UnzipAllFilter`. -/
def UnzipEngine.unzip (eng : UnzipEngine) : List Event × Except UErr Unit :=
  eng.unzip_selective UnzipAllFilter.should_unzip

/-- The filter described by claim C10's words: it returns true for every
filename. -/
def specAllFilter (_ : String) : Bool := true

/-- A concrete entry whose raw path escapes the output root, so
`enclosed_name` is absent. -/
def evilEntry : ZipEntry :=
  { rawName := "../evil.txt", enclosedName := none, compressedSize := 5,
    uncompressedSize := 5, unixMode := none, data := [1, 2, 3, 4, 5] }

/-- A concrete safe file entry without a unix mode. -/
def bTxtEntry : ZipEntry :=
  { rawName := "b.txt", enclosedName := some "b.txt", compressedSize := 14,
    uncompressedSize := 14, unixMode := none, data := [7, 8, 9] }

/-- A concrete safe file entry with unix mode `0o100755` (a regular file
with permissions `rwxr-xr-x`). -/
def bTxtModeEntry : ZipEntry :=
  { rawName := "b.txt", enclosedName := some "b.txt", compressedSize := 3,
    uncompressedSize := 3, unixMode := some 33261, data := [7, 8, 9] }

/-- A concrete directory entry (raw name ends in `/`) with unix mode
`0o775`. -/
def testDirEntry : ZipEntry :=
  { rawName := "test/", enclosedName := some "test/", compressedSize := 0,
    uncompressedSize := 0, unixMode := some 509, data := [] }

/-- A one-entry engine used by witnesses. -/
def demoEngine : UnzipEngine :=
  { entries := [bTxtEntry], compressedLength := 14, outputDirectory := none,
    singleThreaded := true }

/-- The filter invocations recorded in a trace, in order. -/
def filterQueriesOf (tr : List Event) : List String :=
  tr.filterMap fun ev =>
    match ev with
    | .filterQuery n => some n
    | _ => none

/-- The chmod invocations recorded in a trace: the target path and the
permission bits the file is left with.  POSIX `chmod` stores only the low
twelve bits of the requested mode (`S_ISUID | S_ISGID | S_ISVTX` plus the
permission bits), so a call with raw mode `m` leaves the file's
permission bits at `m % 4096`, i.e. `m & 0o7777`. -/
def appliedPermsOf (tr : List Event) : List (String × Nat) :=
  tr.filterMap fun ev =>
    match ev with
    | .setPermissions p m => some (p, m % 4096)
    | _ => none

/-! ## Claims about the cloneable seekable reader -/

/-- Helper: `(-k) as u64` for non-positive `k` in `i64` range is `|k|`. -/
theorem i64NegAsU64_of_nonpos (k : Int) (h1 : -(2 ^ 63) ≤ k) (h2 : k ≤ 0) :
    i64NegAsU64 k = (-k).toNat := by
  unfold i64NegAsU64
  have h3 : (-k) % (2 ^ 64 : Int) = -k := by omega
  rw [h3]

/-- Helper: `(-k) as u64` for positive `k < 2^63` wraps to `2^64 - k`. -/
theorem i64NegAsU64_of_pos (k : Int) (h1 : 0 < k) (h2 : k < 2 ^ 63) :
    i64NegAsU64 k = ((2 ^ 64 : Int) - k).toNat := by
  unfold i64NegAsU64
  have h3 : (-k) % (2 ^ 64 : Int) = 2 ^ 64 - k := by omega
  rw [h3]

/-- Helper: unfolding `seek` on `SeekFrom::End`. -/
theorem seek_fromEnd_eq (inner : Inner) (pos : Nat) (k : Int) :
    CloneableSeekableReader.seek inner pos (.fromEnd k)
      = if i64NegAsU64 k > (inner.getLen).2
        then ((inner.getLen).1,
              .error { kind := "InvalidInput", msg := "Seek too far backwards" })
        else ((inner.getLen).1, .ok ((inner.getLen).2 - i64NegAsU64 k)) := rfl

/-- A fresh reader over bytes `0..9` with one clone taken: two handles,
both at logical position 0, sharing one `Inner`. -/
def twoHandleReader : CSRSystem :=
  (CSRSystem.new [0, 1, 2, 3, 4, 5, 6, 7, 8, 9]).cloneAt 0

/-- The shared state after handle 0 of `twoHandleReader` reads two bytes
and then handle 1 (still at logical position 0) reads two bytes. -/
def c1FinalState : CSRSystem :=
  ((twoHandleReader.readAt 0 2).1.readAt 1 2).1

/-- C1 (code bug): the spec's invariant says the recorded `pos` in the
shared `Inner` equals the source's true position after every operation,
but `Inner::read_at` does not update `pos` when it seeks the source:
after handle 0 of a fresh two-handle reader reads two bytes and handle 1
(logical position 0) reads two bytes, the recorded position is 4 while
the source's true position is 2. -/
theorem c1_recorded_pos_diverges_from_source :
    c1FinalState.inner.pos = 4 ∧ c1FinalState.inner.r.pos = 2
    ∧ c1FinalState.inner.pos ≠ c1FinalState.inner.r.pos := by
  decide

/-- The bytes handle 1 of `twoHandleReader` reads when it seeks to 3 and
reads one byte with no interference from handle 0. -/
def c2BaselineBytes : List Nat :=
  ((twoHandleReader.seekAt 1 (.start 3)).1.readAt 1 1).2

/-- The bytes handle 1 reads from the same seek-to-3-then-read-one after
handle 0 has first read two bytes, seeked to 1 and read one byte. -/
def c2InterferedBytes : List Nat :=
  (((((twoHandleReader.readAt 0 2).1.seekAt 0 (.start 1)).1.readAt 0 1).1.seekAt
      1 (.start 3)).1.readAt 1 1).2

/-- C2 (code bug): operations on one clone can change the bytes another
clone reads.  Baseline: on a fresh reader over bytes `0..9`, handle 1
seeks to 3 and reads one byte, getting `[3]`.  Interfered: handle 0 first
reads two bytes, seeks to 1 and reads one byte; handle 1's identical
seek-to-3-then-read now returns `[2]`, because the stale recorded
position coincides with handle 1's offset and `read_at` skips the
reconciling seek. -/
theorem c2_clone_reads_not_independent :
    c2BaselineBytes = [3] ∧ c2InterferedBytes = [2]
    ∧ c2InterferedBytes ≠ c2BaselineBytes := by
  decide

/-- C3 fails as stated: over a ten-byte source, `seek(SeekFrom::End(1))`
has `L + k = 11 ≥ 0`, so the claim says it succeeds, but the code's
`(-k) as u64` wraps to `2^64 - 1 > L` and the seek fails with the
invalid-input error. -/
theorem c3_seek_past_end_counterexample :
    (CloneableSeekableReader.seek
        (Inner.new { data := [0, 1, 2, 3, 4, 5, 6, 7, 8, 9], pos := 0 }) 0
        (.fromEnd 1)).2
      = .error { kind := "InvalidInput", msg := "Seek too far backwards" } := rfl

/-- C3 (amended): for a source of (cached-or-loaded) length `L < 2^63`
and `k` in `i64` range, `seek(SeekFrom::End(k))` returns `Ok(L + k)`
exactly when `k ≤ 0` and `|k| ≤ L`; it fails with an invalid-input error
when `k ≤ 0` and `|k| > L`, and also whenever `k > 0` (the `(-k) as u64`
cast wraps to `2^64 - k`, which exceeds `L`). -/
theorem c3_seek_from_end_characterization (inner : Inner) (pos : Nat) (k : Int)
    (hk1 : -(2 ^ 63) ≤ k) (hk2 : k < 2 ^ 63)
    (hL : (((inner.getLen).2 : Int) < 2 ^ 63)) :
    (k ≤ 0 → -k ≤ ((inner.getLen).2 : Int) →
      (CloneableSeekableReader.seek inner pos (.fromEnd k)).2
        = .ok ((((inner.getLen).2 : Int) + k).toNat))
    ∧ (k ≤ 0 → ((inner.getLen).2 : Int) < -k →
      (CloneableSeekableReader.seek inner pos (.fromEnd k)).2
        = .error { kind := "InvalidInput", msg := "Seek too far backwards" })
    ∧ (0 < k →
      (CloneableSeekableReader.seek inner pos (.fromEnd k)).2
        = .error { kind := "InvalidInput", msg := "Seek too far backwards" }) := by
  refine ⟨?_, ?_, ?_⟩
  · intro hk0 hle
    have hcast := i64NegAsU64_of_nonpos k hk1 hk0
    rw [seek_fromEnd_eq, hcast,
      if_neg (by omega : ¬((-k).toNat > (inner.getLen).2))]
    exact congrArg Except.ok (by omega)
  · intro hk0 hgt
    have hcast := i64NegAsU64_of_nonpos k hk1 hk0
    rw [seek_fromEnd_eq, hcast,
      if_pos (by omega : (-k).toNat > (inner.getLen).2)]
  · intro hk0
    have hcast := i64NegAsU64_of_pos k hk0 hk2
    rw [seek_fromEnd_eq, hcast,
      if_pos (by omega : ((2 ^ 64 : Int) - k).toNat > (inner.getLen).2)]

/-- Witness for C3 (amended): over a ten-byte source, `seek(End(-2))`
succeeds with position 8 and `seek(End(-11))` fails with the
invalid-input error. -/
theorem c3_seek_from_end_characterization_witness :
    (CloneableSeekableReader.seek
        (Inner.new { data := [0, 1, 2, 3, 4, 5, 6, 7, 8, 9], pos := 0 }) 0
        (.fromEnd (-2))).2 = .ok 8
    ∧ (CloneableSeekableReader.seek
        (Inner.new { data := [0, 1, 2, 3, 4, 5, 6, 7, 8, 9], pos := 0 }) 0
        (.fromEnd (-11))).2
      = .error { kind := "InvalidInput", msg := "Seek too far backwards" } := by
  constructor
  · exact (c3_seek_from_end_characterization
      (Inner.new { data := [0, 1, 2, 3, 4, 5, 6, 7, 8, 9], pos := 0 }) 0 (-2)
      (by decide) (by decide) (by decide)).1 (by decide) (by decide)
  · exact (c3_seek_from_end_characterization
      (Inner.new { data := [0, 1, 2, 3, 4, 5, 6, 7, 8, 9], pos := 0 }) 0 (-11)
      (by decide) (by decide) (by decide)).2.1 (by decide) (by decide)

/-- C7 fails as stated: a clone of a handle whose position is 5 starts at
position 5, not 0 — `Clone for CloneableSeekableReader` copies
`pos: self.pos`. -/
theorem c7_clone_position_counterexample :
    let s1 := ((CSRSystem.new [0, 1, 2, 3]).seekAt 0 (.start 5)).1
    let s2 := s1.cloneAt 0
    s2.cursors = [5, 5] ∧ s2.cursors.getD 1 0 ≠ 0 ∧ s2.inner = s1.inner := by
  decide

/-- C7 (amended): a clone shares the same inner state as the original and
starts with its logical position equal to the original handle's current
position (this is 0 precisely when the original is still at 0). -/
theorem c7_clone_shares_inner_copies_pos (s : CSRSystem) (i : Nat) :
    (s.cloneAt i).inner = s.inner
    ∧ (s.cloneAt i).cursors.getD s.cursors.length 0 = s.cursors.getD i 0
    ∧ (s.cloneAt i).cursors.length = s.cursors.length + 1 := by
  refine ⟨rfl, ?_, by simp [CSRSystem.cloneAt]⟩
  simp [CSRSystem.cloneAt, List.getD_eq_getElem?_getD, List.getElem?_concat_length]

/-! ## Claims about the extraction orchestrator -/

/-- Helper: `extract_file_inner` never consults the filename filter. -/
theorem filterQueriesOf_extract_file_inner (e : ZipEntry) (outdir : Option String) :
    filterQueriesOf (extract_file_inner e outdir).1 = [] := by
  unfold extract_file_inner
  cases e.enclosedName with
  | none => rfl
  | some name =>
    cases h : endsWithSlash e.rawName <;> cases hm : e.unixMode <;>
      simp [filterQueriesOf, h, hm]

/-- Helper: each per-entry task consults the filter exactly once, with
the entry's lossy enclosed name. -/
theorem filterQueriesOf_entry (e : ZipEntry) (fil : String → Bool)
    (outdir : Option String) :
    filterQueriesOf (extract_file_if_on_list e fil outdir).1 = [lossyName e] := by
  unfold extract_file_if_on_list
  cases h : fil (lossyName e) <;>
    simp [filterQueriesOf, h, ← filterQueriesOf_extract_file_inner e outdir,
      filterQueriesOf]

/-- C4 fails as stated: an entry whose `enclosed_name` is absent is not
always failed with the unsafe-path error — with a filter that rejects the
placeholder name `"<unprintable>"` the entry is skipped and the per-entry
task returns success. -/
theorem c4_skipped_entry_counterexample :
    evilEntry.enclosedName = none
    ∧ (extract_file_if_on_list evilEntry (fun _ => false) none).2 = .ok () :=
  ⟨rfl, rfl⟩

/-- C4 (amended): an entry whose `enclosed_name` is absent fails with the
unsafe-path error (annotated `Failed to extract <unprintable>`) only when
the filter accepts the placeholder name `"<unprintable>"`; when the
filter rejects it the entry is skipped with success.  In either case no
file is created for it, and any file-creation event in a per-entry trace
comes from an entry whose `enclosed_name` is present. -/
theorem c4_path_not_safe_amended :
    (∀ (e : ZipEntry) (fil : String → Bool) (outdir : Option String),
      e.enclosedName = none →
        ((fil "<unprintable>" = true →
          (extract_file_if_on_list e fil outdir).2
            = .error (.context "Failed to extract <unprintable>" pathNotSafeErr))
        ∧ (fil "<unprintable>" = false →
          (extract_file_if_on_list e fil outdir).2 = .ok ())
        ∧ ∀ p, Event.createFile p ∉ (extract_file_if_on_list e fil outdir).1))
    ∧ (∀ (e : ZipEntry) (fil : String → Bool) (outdir : Option String) (p : String),
        Event.createFile p ∈ (extract_file_if_on_list e fil outdir).1 →
          e.enclosedName.isSome = true) := by
  constructor
  · intro e fil outdir hnone
    have hlossy : lossyName e = "<unprintable>" := by simp [lossyName, hnone]
    refine ⟨?_, ?_, ?_⟩
    · intro hfil
      simp [extract_file_if_on_list, hlossy, hfil, extract_file_inner, hnone,
        Except.mapError]
    · intro hfil
      simp [extract_file_if_on_list, hlossy, hfil]
    · intro p
      cases hfil : fil "<unprintable>" <;>
        simp [extract_file_if_on_list, hlossy, hfil, extract_file_inner, hnone]
  · intro e fil outdir p hmem
    cases hn : e.enclosedName with
    | some name => rfl
    | none =>
      have hlossy : lossyName e = "<unprintable>" := by simp [lossyName, hn]
      cases hfil : fil "<unprintable>" <;>
        simp [extract_file_if_on_list, hlossy, hfil, extract_file_inner, hn] at hmem

/-- Witness for C4 (amended): the unsafe entry fails with the annotated
unsafe-path error when the filter admits everything. -/
theorem c4_path_not_safe_amended_witness :
    (extract_file_if_on_list evilEntry (fun _ => true) none).2
      = .error (.context "Failed to extract <unprintable>" pathNotSafeErr) :=
  ((c4_path_not_safe_amended.1 evilEntry (fun _ => true) none rfl).1) rfl

/-- C5: `unzip_selective` runs every entry's task (its trace is the
concatenation of every per-entry trace — an entry's error does not
abort the remaining entries), collects exactly the per-entry errors, and
returns the first collected error; it returns success if and only if no
entry produced an error. -/
theorem c5_errors_collected_first_returned (eng : UnzipEngine) (fil : String → Bool) :
    ((eng.unzip_selective fil).1
      = Event.totalBytesExpected eng.compressedLength
          :: (eng.entries.map fun e =>
                (extract_file_if_on_list e fil eng.outputDirectory).1).flatten)
    ∧ ((eng.unzip_selective fil).2
      = match (eng.entries.map fun e =>
            (extract_file_if_on_list e fil eng.outputDirectory).2).filterMap errOf with
         | [] => .ok ()
         | er :: _ => .error er)
    ∧ ((eng.unzip_selective fil).2 = .ok ()
        ↔ ∀ e ∈ eng.entries,
            (extract_file_if_on_list e fil eng.outputDirectory).2 = .ok ()) := by
  have hmap1 :
      ((eng.entries.map fun e =>
          extract_file_if_on_list e fil eng.outputDirectory).map Prod.fst)
        = eng.entries.map fun e =>
            (extract_file_if_on_list e fil eng.outputDirectory).1 := by
    simp [List.map_map, Function.comp]
  have hmap2 :
      ((eng.entries.map fun e =>
          extract_file_if_on_list e fil eng.outputDirectory).filterMap
            fun r => errOf r.2)
        = (eng.entries.map fun e =>
            (extract_file_if_on_list e fil eng.outputDirectory).2).filterMap errOf := by
    simp only [List.filterMap_map]
    rfl
  refine ⟨?_, ?_, ?_⟩
  · simp only [UnzipEngine.unzip_selective, unzip_serial_or_parallel, hmap1]
  · simp only [UnzipEngine.unzip_selective, unzip_serial_or_parallel, hmap2]
  · simp only [UnzipEngine.unzip_selective, unzip_serial_or_parallel, hmap2]
    constructor
    · intro hok e he
      by_contra hne
      have hsome : errOf (extract_file_if_on_list e fil eng.outputDirectory).2 ≠ none := by
        cases hx : (extract_file_if_on_list e fil eng.outputDirectory).2 with
        | ok u => exact absurd (by cases u; exact hx) hne
        | error er => simp [errOf, hx]
      have hmem :
          errOf (extract_file_if_on_list e fil eng.outputDirectory).2
            ∈ (eng.entries.map fun e =>
                (extract_file_if_on_list e fil eng.outputDirectory).2).map errOf := by
        exact List.mem_map_of_mem errOf (List.mem_map_of_mem _ he)
      cases hnil : (eng.entries.map fun e =>
          (extract_file_if_on_list e fil eng.outputDirectory).2).filterMap errOf with
      | nil =>
        have hall := (List.filterMap_eq_nil_iff.1 hnil) _ (List.mem_map_of_mem _ he)
        exact hsome hall
      | cons er tl => simp [hnil] at hok
    · intro hall
      have hnil : (eng.entries.map fun e =>
          (extract_file_if_on_list e fil eng.outputDirectory).2).filterMap errOf = [] := by
        apply List.filterMap_eq_nil_iff.2
        intro x hx
        obtain ⟨e, he, rfl⟩ := List.mem_map.1 hx
        rw [hall e he]
        rfl
      simp [hnil]

/-- Witness for C5: a run over one skipped entry returns success. -/
theorem c5_errors_collected_first_returned_witness :
    (demoEngine.unzip_selective (fun _ => false)).2 = .ok () := by
  have h := (c5_errors_collected_first_returned demoEngine (fun _ => false)).2.2
  exact h.2 (by intro e he; simp [demoEngine] at he; subst he; rfl)

/-- Helper: over a whole run, the filter queries are exactly one per
entry, in entry order. -/
theorem filterQueriesOf_run (entries : List ZipEntry) (fil : String → Bool)
    (outdir : Option String) :
    filterQueriesOf (unzip_serial_or_parallel entries fil outdir).1
      = entries.map lossyName := by
  induction entries with
  | nil => rfl
  | cons e tl ih =>
    have hstep : (unzip_serial_or_parallel (e :: tl) fil outdir).1
        = (extract_file_if_on_list e fil outdir).1
            ++ (unzip_serial_or_parallel tl fil outdir).1 := by
      simp [unzip_serial_or_parallel]
    have h1 := filterQueriesOf_entry e fil outdir
    unfold filterQueriesOf at h1 ih ⊢
    rw [hstep, List.filterMap_append, h1, ih]
    rfl

/-- C6: the filename filter is consulted exactly once per entry, with
that entry's name — over a whole run the filter queries are exactly one
per index, in order — and whenever the filter returns false the task's
entire effect is the skip callback invoked with the entry's compressed
size (no file creation, no directory creation, no bytes written) and the
task returns success. -/
theorem c6_filter_once_and_skip (e : ZipEntry) (fil : String → Bool)
    (outdir : Option String) :
    filterQueriesOf (extract_file_if_on_list e fil outdir).1 = [lossyName e]
    ∧ (∀ entries : List ZipEntry,
        filterQueriesOf (unzip_serial_or_parallel entries fil outdir).1
          = entries.map lossyName)
    ∧ (fil (lossyName e) = false →
        extract_file_if_on_list e fil outdir
          = ([Event.filterQuery (lossyName e),
              Event.skipCallback e.compressedSize], .ok ())) := by
  refine ⟨filterQueriesOf_entry e fil outdir,
    fun entries => filterQueriesOf_run entries fil outdir, ?_⟩
  intro hfil
  simp [extract_file_if_on_list, hfil]

/-- Witness for C6: a rejected entry produces exactly the filter query
and the skip hint with its compressed size. -/
theorem c6_filter_once_and_skip_witness :
    extract_file_if_on_list bTxtEntry (fun _ => false) (some "out")
      = ([Event.filterQuery "b.txt", Event.skipCallback 14], .ok ()) :=
  (c6_filter_once_and_skip bTxtEntry (fun _ => false) (some "out")).2.2 rfl

/-- C8: for every entry with a safe enclosed name, if it carries
`unix_mode = m` then exactly one chmod is performed, on the entry's
output path, leaving the file's permission bits at `m & 0o7777`, and it
happens after the entry's bytes are written (the chmod and the final
`extraction_finished` are the last two events); an entry without a
`unix_mode` triggers no chmod at all. -/
theorem c8_permissions (e : ZipEntry) (outdir : Option String) (name : String)
    (hname : e.enclosedName = some name) :
    (∀ m, e.unixMode = some m →
      appliedPermsOf (extract_file_inner e outdir).1
          = [(entryOutPath outdir name, m &&& 4095)]
        ∧ ∃ pre, (extract_file_inner e outdir).1
              = pre ++ [Event.setPermissions (entryOutPath outdir name) m,
                        Event.extractionFinished name]
            ∧ (endsWithSlash e.rawName = false →
                Event.writeBytes (entryOutPath outdir name) e.data ∈ pre))
    ∧ (e.unixMode = none →
        appliedPermsOf (extract_file_inner e outdir).1 = []) := by
  constructor
  · intro m hm
    constructor
    · have hmask : m &&& 4095 = m % 4096 := Nat.and_pow_two_sub_one_eq_mod m 12
      cases h : endsWithSlash e.rawName <;>
        simp [extract_file_inner, hname, hm, h, appliedPermsOf, hmask]
    · cases h : endsWithSlash e.rawName with
      | true =>
        refine ⟨[Event.extractionStarting name,
          Event.createDirAll (entryOutPath outdir name)], ?_, by simp⟩
        simp [extract_file_inner, hname, hm, h]
      | false =>
        refine ⟨[Event.extractionStarting name,
          Event.ensureParentDir (entryOutPath outdir name),
          Event.createFile (entryOutPath outdir name),
          Event.writeBytes (entryOutPath outdir name) e.data], ?_, by simp⟩
        simp [extract_file_inner, hname, hm, h]
  · intro hm
    cases h : endsWithSlash e.rawName <;>
      simp [extract_file_inner, hname, hm, h, appliedPermsOf]

/-- Witness for C8: an entry with `unix_mode = 0o100755` ends up with
permission bits `0o755`; an entry without a mode triggers no chmod. -/
theorem c8_permissions_witness :
    appliedPermsOf (extract_file_inner bTxtModeEntry (some "out")).1
      = [("out/b.txt", 493)] := by
  have h := ((c8_permissions bTxtModeEntry (some "out") "b.txt" rfl).1 33261 rfl).1
  rw [h]
  decide

/-- C9 fails as stated: for a directory entry that passes the filter, the
extraction path does call the progress reporter's `extraction_finished`
(the directory branch falls through to the common tail of
`extract_file_inner`). -/
theorem c9_dir_extraction_finished_counterexample :
    endsWithSlash testDirEntry.rawName = true
    ∧ Event.extractionFinished "test/"
        ∈ (extract_file_if_on_list testDirEntry (fun _ => true) none).1 := by
  decide

/-- C9 (amended): for every directory entry (raw name ending in `/`)
with a safe enclosed name that passes the filter, the per-entry trace is
exactly: the filter query, `extraction_starting`, the directory creation,
the optional chmod, and `extraction_finished` — so `extraction_finished`
IS emitted for directory entries. -/
theorem c9_dir_entries_emit_extraction_finished (e : ZipEntry)
    (fil : String → Bool) (outdir : Option String) (name : String)
    (hname : e.enclosedName = some name)
    (hdir : endsWithSlash e.rawName = true)
    (hfil : fil name = true) :
    extract_file_if_on_list e fil outdir
      = (Event.filterQuery name :: Event.extractionStarting name
          :: Event.createDirAll (entryOutPath outdir name)
          :: ((match e.unixMode with
               | some m => [Event.setPermissions (entryOutPath outdir name) m]
               | none => []) ++ [Event.extractionFinished name]),
         .ok ()) := by
  have hlossy : lossyName e = name := by simp [lossyName, hname]
  cases hm : e.unixMode <;>
    simp [extract_file_if_on_list, hlossy, hfil, extract_file_inner, hname,
      hdir, hm, Except.mapError]

/-- Witness for C9 (amended): the concrete directory entry's trace ends
with `extraction_finished`. -/
theorem c9_dir_entries_emit_extraction_finished_witness :
    extract_file_if_on_list testDirEntry (fun _ => true) (some "out")
      = ([Event.filterQuery "test/", Event.extractionStarting "test/",
          Event.createDirAll "out/test/", Event.setPermissions "out/test/" 509,
          Event.extractionFinished "test/"], .ok ()) := by
  have h := c9_dir_entries_emit_extraction_finished testDirEntry
      (fun _ => true) (some "out") "test/" rfl (by decide) rfl
  rw [h]
  rfl

/-- C10: `UnzipEngine::unzip()` is `unzip_selective` applied to the
filter that admits every filename: `UnzipAllFilter::should_unzip` returns
true on every name, and for every engine state `unzip` and
`unzip_selective` with the all-admitting filter produce identical traces
and results. -/
theorem c10_unzip_eq_unzip_selective_all :
    (∀ name, UnzipAllFilter.should_unzip name = true)
    ∧ ∀ eng : UnzipEngine, eng.unzip = eng.unzip_selective specAllFilter :=
  ⟨fun _ => rfl, fun _ => rfl⟩

end Ripunzip
